import Mathlib

/-!
Verification model of the `onedrivefs` Go module: an `fs.FS` facade over the
OneDrive graph API.  The Go source is shallowly embedded: pure helpers become
Lean functions, the HTTP layer becomes explicit oracles (a resolver for
"get item by path", a fetch outcome for "list children", a download oracle for
file bodies), and the directory handle's `sync.Once` guarded state becomes an
explicit state record threaded through `ReadDir`.
-/

/-! ## Basic wire and error types (onedrive.go, errors part of the module) -/

/-- Models the InnerError JSON object of the OneDrive error body. -/
structure InnerError where
  date : String
  requestID : String
  clientRequestID : String
deriving DecidableEq

/-- Models OneDriveAPIError: code, message, localizedMessage, innerError and
the attached response header set (http.Header modelled as a key-value list). -/
structure OneDriveAPIError where
  code : String
  message : String
  localizedMessage : String
  innerError : Option InnerError
  responseHeader : List (String × String)
deriving DecidableEq

/-- Models the ItemNotFoundErrorCode constant. -/
def ItemNotFoundErrorCode : String := "itemNotFound"

/-- Errors produced by the remote request layer, as Go error values:
a decoded *OneDriveAPIError (the only case `errors.As` with an
OneDriveAPIError target matches), a context cancellation, a transport
failure from client.Do, a plain errors.New string (the undecodable-body
fallback), or a JSON decode failure of a success body. -/
inductive RemoteError where
  | api (e : OneDriveAPIError)
  | canceled
  | transport (msg : String)
  | generic (msg : String)
  | decodeFailure (msg : String)
deriving DecidableEq

/-- Models the Err field of an fs.PathError: either errors.New text or the
sentinel fs.ErrInvalid. -/
inductive BaseError where
  | ofString (msg : String)
  | errInvalid
deriving DecidableEq

/-- Go error values surfaced by the facade operations. -/
inductive FsError where
  | pathError (op path : String) (err : BaseError)
  | errNotExist
  | remote (e : RemoteError)
  | errorString (msg : String)
  | eof
deriving DecidableEq

/-! ## Remote item schema (onedrive.go) -/

/-- Models driveItem.  The `folder` and `root` JSON facets are presence
markers (`*struct{}` in Go), modelled as Booleans; time.Time is modelled as an
integer tick count with 0 as the zero time; int64 sizes as Int. -/
structure DriveItem where
  id : String
  name : String
  downloadURL : String
  description : String
  folder : Bool
  root : Bool
  size : Int
  createdDateTime : Int
  lastModifiedDateTime : Int
deriving DecidableEq

/-- Models the fileInfo struct implementing fs.FileInfo; fs.FileMode is a
bit mask modelled as Nat. -/
structure FileInfo where
  name : String
  size : Int
  mode : Nat
  modTime : Int
  isDir : Bool
deriving DecidableEq

/-- Models fs.ModeDir = 1 << 31. -/
def modeDir : Nat := 2 ^ 31

/-! ## String helpers (models of the Go standard library calls used) -/

/-- Byte-wise strict lexicographic order on character lists; models the
`strings.Compare(a, b) < 0` relation used by the sort in openDir.ReadDir
(UTF-8 byte order and code-point order agree on valid strings). -/
def charListLt : List Char → List Char → Bool
  | [], [] => false
  | [], _ :: _ => true
  | _ :: _, [] => false
  | a :: as, b :: bs => if a < b then true else if b < a then false else charListLt as bs

/-- Models `strings.Compare(a, b) < 0`. -/
def strLt (a b : String) : Bool := charListLt a.data b.data

/-- Models `strings.Contains(s, c)` for a single-character substring, as used
by validatePath for the backslash check. -/
def strContains (s : String) (c : Char) : Bool := s.data.contains c

/-- Models `strings.TrimPrefix(name, "/")`. -/
def trimRootSlash (name : String) : String :=
  match name.data with
  | '/' :: rest => String.mk rest
  | _ => name

/-- Models `filepath.IsAbs` under Unix rules: the path starts with a slash. -/
def isAbs (path : String) : Bool :=
  match path.data with
  | '/' :: _ => true
  | _ => false

/-- Splits a character list at every slash, keeping empty segments
(helper for the filepath.Clean model). -/
def splitSlash : List Char → List (List Char)
  | [] => [[]]
  | c :: cs =>
    let rest := splitSlash cs
    if c = '/' then [] :: rest
    else
      match rest with
      | s :: ss => (c :: s) :: ss
      | [] => [[c]]

/-- Processes path segments against a stack: drops empty and dot segments,
resolves dot-dot against the stack (dropping it at the root when rooted);
helper for the filepath.Clean model.  The stack is kept in reverse order. -/
def cleanStack (rooted : Bool) : List (List Char) → List (List Char) → List (List Char)
  | stack, [] => stack
  | stack, seg :: rest =>
    let stack :=
      if seg = [] ∨ seg = ['.'] then stack
      else if seg = ['.', '.'] then
        match stack with
        | [] => if rooted then [] else [['.', '.']]
        | top :: more => if top = ['.', '.'] then ['.', '.'] :: top :: more else more
      else seg :: stack
    cleanStack rooted stack rest

/-- Joins segments with slashes (helper for the filepath.Clean model). -/
def joinSlash : List (List Char) → List Char
  | [] => []
  | [s] => s
  | s :: ss => s ++ '/' :: joinSlash ss

/-- Models Go `path/filepath.Clean` under Unix rules, via the standard
segment-stack formulation of its lexical algorithm: collapse repeated
slashes, drop single-dot segments, resolve dot-dot segments against earlier
segments (dropped entirely at the root of a rooted path), return a single dot
for an empty result. -/
def cleanPath (path : String) : String :=
  if path = "" then "."
  else
    let rooted := isAbs path
    let segs := (cleanStack rooted [] (splitSlash path.data)).reverse
    let out := joinSlash segs
    if rooted then String.mk ('/' :: out)
    else if out = [] then "."
    else String.mk out

/-! ## Path validation (validatePath) -/

/-- Models validatePath: rejects absolute paths, paths that are not equal to
their filepath.Clean form, and paths containing a backslash. -/
def validatePath (path : String) : Option BaseError :=
  if isAbs path then some (.ofString "absolute paths are not allowed")
  else if cleanPath path ≠ path then some (.ofString "relative path elements are not allowed")
  else if strContains path '\\' then some (.ofString "backslashes are not allowed in path")
  else none

/-! ## Metadata projection (the fileInfo built by Open and Stat) -/

/-- Models the fileInfo construction shared by FS.Open and FS.Stat: a folder
item gets mode 0o555 + fs.ModeDir and the directory flag, with the root item
renamed to "."; a file item gets mode 0o555; size and modification time are
copied verbatim. -/
def projectItem (item : DriveItem) : FileInfo :=
  if item.folder then
    { isDir := true
      name := if item.root then "." else item.name
      mode := 0o555 + modeDir
      modTime := item.lastModifiedDateTime
      size := item.size }
  else
    { isDir := false
      name := item.name
      size := item.size
      mode := 0o555
      modTime := item.lastModifiedDateTime }

/-- Models the dirEntry construction inside openDir.ReadDir's loop:
mode 0o555, or-ed with fs.ModeDir for folder items; no root renaming. -/
def entryOf (item : DriveItem) : FileInfo :=
  { name := item.name
    size := item.size
    mode := if item.folder then 0o555 ||| modeDir else 0o555
    modTime := item.lastModifiedDateTime
    isDir := item.folder }

/-! ## Request URLs (onedrive.go) -/

/-- Models the module-scoped baseURL constant. -/
def baseURLString : String := "https://graph.microsoft.com/v1.0/"

/-- Models newRequest's `baseURL.Parse(relativeURL)` for the relative
references produced by listDriveItems (no scheme, no leading slash, no dot
segments): RFC 3986 merge appends the reference to the base path. -/
def newRequestURL (rel : String) : String := baseURLString ++ rel

/-- Models the request path built by getDriveItemsByPath; `esc` abstracts
url.PathEscape. -/
def getDriveItemURL (esc : String → String) (driveID itemPath : String) : String :=
  let apiURL := if driveID ≠ "" then "/v1.0/drives/" ++ esc driveID ++ "/root" else "me/drive/root"
  if itemPath ≠ "" then apiURL ++ ":/" ++ esc itemPath else apiURL

/-- Models the request path built by listDriveItems; `esc` abstracts
url.PathEscape. -/
def listItemsURL (esc : String → String) (driveID folderID : String) : String :=
  let apiURL := "me/drive/root/children"
  let apiURL := if folderID ≠ "" then "me/drive/items/" ++ esc folderID ++ "/children" else apiURL
  if driveID ≠ "" then
    if folderID ≠ "" then "me/drives/" ++ esc driveID ++ "/items/" ++ esc folderID ++ "/children"
    else "me/drives/" ++ esc driveID ++ "/root/children"
  else apiURL

/-- Models the query attached by listDriveItems before url.Values.Encode. -/
def listItemsQuery : List (String × String) := [("$orderby", "name asc")]

/-- The listing URL form asserted by the specification (refinement target,
written from the spec's words, not from the code): base-relative
`(me/drive|drives/driveID)/(root|items/folderID)/children`. -/
def listItemsURLSpec (esc : String → String) (driveID folderID : String) : String :=
  (if driveID = "" then "me/drive" else "drives/" ++ esc driveID) ++ "/" ++
    (if folderID = "" then "root" else "items/" ++ esc folderID) ++ "/children"

/-! ## Request execution (doRequest) -/

/-- Models the observable part of an http.Response as doRequest consumes it:
the numeric status code, the textual resp.Status, the header set, and the
outcome of decoding the body against the error envelope: decode failure, or
success with the error field absent or present. -/
structure Response where
  statusCode : Nat
  status : String
  header : List (String × String)
  errorBody : Except String (Option OneDriveAPIError)

/-- Models doRequest.  `transport` is the outcome of client.Do;
`decodeTarget` is the outcome json.Decode would produce for the target type
on a success body.  The result is the decoded target, or none when the body
was not decoded into the target (status 204). -/
def doRequest {α : Type} (transport : Except RemoteError Response)
    (decodeTarget : Except RemoteError α) : Except RemoteError (Option α) :=
  match transport with
  | .error e => .error e
  | .ok resp =>
    if 400 ≤ resp.statusCode then
      match resp.errorBody with
      | .error _ => .error (.generic ("unexpected error: " ++ resp.status))
      | .ok none => .error (.generic ("unexpected error: " ++ resp.status))
      | .ok (some e) => .error (.api { e with responseHeader := resp.header })
    else
      if resp.statusCode ≠ 204 then
        match decodeTarget with
        | .error e => .error e
        | .ok t => .ok (some t)
      else .ok none

/-! ## Handles (the openFile / openDir part of the module) -/

/-- Models openFile: its fileInfo and its body stream, the latter abstracted
as the finite byte sequence the download produced. -/
structure OpenFile where
  info : FileInfo
  data : List Nat
deriving DecidableEq

/-- Models openDir: the embedded fileInfo, the folder and drive identifiers,
and the sync.Once guarded listing state (`fetched` records whether the Once
has been consumed; `items` and `offset` are the cached listing and cursor). -/
structure OpenDir where
  info : FileInfo
  dirID : String
  driveID : String
  fetched : Bool
  items : List DriveItem
  offset : Nat
deriving DecidableEq

/-- The ascending-name relation the directory sort uses. -/
def nameLe (a b : FileInfo) : Prop := strLt b.name a.name = false

/-- The strict ascending-name relation. -/
def nameLt (a b : FileInfo) : Prop := strLt a.name b.name = true

instance : DecidableRel nameLe := fun _ _ => inferInstanceAs (Decidable (_ = false))

instance : DecidableRel nameLt := fun _ _ => inferInstanceAs (Decidable (_ = true))

/-- Models `slices.SortFunc(list, strings.Compare on names)`: a comparison
sort ascending by name (sort algorithm modelled as insertion sort; the Go
sort is unstable, so any comparison sort is a faithful model up to the order
of equal names). -/
def sortEntries (l : List FileInfo) : List FileInfo := List.insertionSort nameLe l

/-- Models the `getItemsOnce.Do` block of openDir.ReadDir: when the handle
has not fetched yet, consume the one-shot guard and record the items on
success (the call-local err is set only in this case); afterwards the guard
body never runs again.  Returns the call-local err, the new state, and
whether the remote listing call was issued. -/
def OpenDir.fetchOnce (fetch : Except RemoteError (List DriveItem)) (d : OpenDir) :
    Option RemoteError × OpenDir × Bool :=
  if d.fetched then (none, d, false)
  else
    match fetch with
    | .error e => (some e, { d with fetched := true }, true)
    | .ok its => (none, { d with fetched := true, items := its }, true)

/-- The batch size openDir.ReadDir uses: the remaining entry count, capped at
the requested count when that is positive and smaller. -/
def serveCount (d : OpenDir) (count : Int) : Nat :=
  if 0 < count ∧ count < ((d.items.length - d.offset : Nat) : Int) then count.toNat
  else d.items.length - d.offset

/-- Models the cursor part of openDir.ReadDir after the fetch guard:
end-of-sequence when nothing remains and the count is positive, otherwise a
batch of the remaining entries (capped at the count when positive), sorted
ascending by name, with the cursor advanced by the batch size. -/
def OpenDir.serve (d : OpenDir) (count : Int) : Except FsError (List FileInfo) × OpenDir :=
  if d.items.length - d.offset = 0 ∧ 0 < count then (.error .eof, d)
  else
    (.ok (sortEntries (((d.items.drop d.offset).take (serveCount d count)).map entryOf)),
      { d with offset := d.offset + serveCount d count })

/-- The outcome of one openDir.ReadDir call: the returned value or error, the
handle state afterwards, and whether this call issued the remote listing. -/
structure ReadDirOut where
  result : Except FsError (List FileInfo)
  state : OpenDir
  didFetch : Bool

/-- Models openDir.ReadDir(count): run the one-shot fetch guard, surface its
call-local error if this very call fetched and failed, then serve from the
cursor. -/
def OpenDir.ReadDir (fetch : Except RemoteError (List DriveItem)) (d : OpenDir)
    (count : Int) : ReadDirOut :=
  match d.fetchOnce fetch with
  | (some e, d1, df) => ⟨.error (.remote e), d1, df⟩
  | (none, d1, df) =>
    let rd := d1.serve count
    ⟨rd.1, rd.2, df⟩

/-- Models openDir.Read: a byte read on a directory handle returns zero bytes
and an invalid-operation path error, unconditionally. -/
def OpenDir.Read (d : OpenDir) : Nat × FsError :=
  (0, .pathError "read" d.info.name .errInvalid)

/-- Drains a directory handle by repeated ReadDir(1) calls, concatenating the
batches and stopping at the first error (the end-of-sequence signal); fuel
bounds the number of calls. -/
def drainOne (fetch : Except RemoteError (List DriveItem)) (d : OpenDir) :
    Nat → List FileInfo
  | 0 => []
  | fuel + 1 =>
    let out := d.ReadDir fetch 1
    match out.result with
    | .error _ => []
    | .ok l => l ++ drainOne fetch out.state fuel

/-! ## The facade (FS) -/

/-- Models the FS struct; the http client and context live in the oracles. -/
structure FS where
  driveID : String

/-- Outcome oracle for getDriveItemsByPath at a given item path. -/
abbrev Resolver : Type := String → Except RemoteError DriveItem

/-- Outcome oracle for the streaming download request Open issues at a
download URL: a request/transport error, or the body's byte stream. -/
abbrev Download : Type := String → Except FsError (List Nat)

/-- The special-casing of "." to the root path and the leading-slash strip
that Open and Stat apply to the input path before resolution. -/
def itemPathOf (origName : String) : String :=
  trimRootSlash (if origName = "." then "/" else origName)

/-- The value FS.Open returns: a directory handle or a file handle. -/
inductive OpenResult where
  | dir (d : OpenDir)
  | file (fl : OpenFile)

/-- Models FS.Open: validate the path, special-case "." to the root, strip
the leading slash, resolve the item (mapping the itemNotFound remote code to
fs.ErrNotExist and passing every other resolution error through), then
return a fresh directory handle for a folder item, or require a download URL
and open the streaming body for a file item. -/
def FS.Open (f : FS) (resolve : Resolver) (download : Download) (origName : String) :
    Except FsError OpenResult :=
  match validatePath origName with
  | some err => .error (.pathError "open" origName err)
  | none =>
    match resolve (itemPathOf origName) with
    | .error (.api od) =>
      if od.code = ItemNotFoundErrorCode then .error .errNotExist
      else .error (.remote (.api od))
    | .error e => .error (.remote e)
    | .ok item =>
      if item.folder then
        .ok (.dir
          { info := projectItem item
            dirID := item.id
            driveID := f.driveID
            fetched := false
            items := []
            offset := 0 })
      else if item.downloadURL = "" then
        .error (.errorString "the file is not downloadable, because the API didn't provide download URL")
      else
        match download item.downloadURL with
        | .error e => .error e
        | .ok body => .ok (.file { info := projectItem item, data := body })

/-- Models FS.Stat: validate, special-case "." to the root, resolve (with the
same itemNotFound mapping, written against the literal code string as in the
source), and project the item's metadata. -/
def FS.Stat (f : FS) (resolve : Resolver) (name : String) : Except FsError FileInfo :=
  match validatePath name with
  | some err => .error (.pathError "open" name err)
  | none =>
    match resolve (itemPathOf name) with
    | .error (.api od) =>
      if od.code = "itemNotFound" then .error .errNotExist
      else .error (.remote (.api od))
    | .error e => .error (.remote e)
    | .ok item => .ok (projectItem item)

/-- Models FS.ReadDir: open the path, fail with a not-implemented path error
when the handle is not a directory handle, otherwise drain the fresh handle
with one unbounded read. -/
def FS.ReadDir (f : FS) (resolve : Resolver) (download : Download)
    (fetch : Except RemoteError (List DriveItem)) (name : String) :
    Except FsError (List FileInfo) :=
  match f.Open resolve download name with
  | .error e => .error e
  | .ok (.file _) => .error (.pathError "readdir" name (.ofString "not implemented"))
  | .ok (.dir d) => (d.ReadDir fetch (-1)).result

/-- Models FS.ReadFile: open the path and copy the whole stream.  For a file
handle the finite stream is drained; for a directory handle the first byte
read fails with the invalid-operation path error, which aborts io.Copy. -/
def FS.ReadFile (f : FS) (resolve : Resolver) (download : Download) (name : String) :
    Except FsError (List Nat) :=
  match f.Open resolve download name with
  | .error e => .error e
  | .ok (.dir d) => .error d.Read.2
  | .ok (.file fl) => .ok fl.data

/-! ## Order lemmas for the byte-wise comparison -/

theorem charListLt_irrefl : ∀ l : List Char, charListLt l l = false
  | [] => rfl
  | a :: as => by simp [charListLt, lt_irrefl a, charListLt_irrefl as]

theorem charListLt_trans : ∀ a b c : List Char,
    charListLt a b = true → charListLt b c = true → charListLt a c = true := by
  intro a
  induction a with
  | nil =>
    intro b c hab hbc
    cases b with
    | nil => simp [charListLt] at hab
    | cons y ys =>
      cases c with
      | nil => simp [charListLt] at hbc
      | cons z zs => simp [charListLt]
  | cons x xs ih =>
    intro b c hab hbc
    cases b with
    | nil => simp [charListLt] at hab
    | cons y ys =>
      cases c with
      | nil => simp [charListLt] at hbc
      | cons z zs =>
        simp only [charListLt] at hab hbc ⊢
        by_cases hxy : x < y
        · simp only [if_pos hxy] at hab
          by_cases hyz : y < z
          · simp [if_pos (lt_trans hxy hyz)]
          · by_cases hzy : z < y
            · simp [if_neg hyz, if_pos hzy] at hbc
            · have hyzeq : y = z := le_antisymm (not_lt.mp hzy) (not_lt.mp hyz)
              subst hyzeq
              simp [if_pos hxy]
        · by_cases hyx : y < x
          · simp [if_neg hxy, if_pos hyx] at hab
          · have hxyeq : x = y := le_antisymm (not_lt.mp hyx) (not_lt.mp hxy)
            subst hxyeq
            simp only [if_neg hxy, if_neg hyx] at hab
            by_cases hxz : x < z
            · simp [if_pos hxz]
            · by_cases hzx : z < x
              · simp [if_neg hxz, if_pos hzx] at hbc
              · simp only [if_neg hxz, if_neg hzx] at hbc ⊢
                exact ih ys zs hab hbc

theorem charListLt_connex : ∀ a b : List Char,
    charListLt a b = false → charListLt b a = true ∨ a = b := by
  intro a
  induction a with
  | nil =>
    intro b h
    cases b with
    | nil => exact Or.inr rfl
    | cons y ys => simp [charListLt] at h
  | cons x xs ih =>
    intro b h
    cases b with
    | nil => exact Or.inl rfl
    | cons y ys =>
      simp only [charListLt] at h ⊢
      by_cases hxy : x < y
      · simp [if_pos hxy] at h
      · by_cases hyx : y < x
        · exact Or.inl (by simp [if_pos hyx])
        · have hxyeq : x = y := le_antisymm (not_lt.mp hyx) (not_lt.mp hxy)
          subst hxyeq
          simp only [if_neg hxy, if_neg hyx] at h ⊢
          rcases ih ys h with h1 | h1
          · exact Or.inl h1
          · exact Or.inr (by rw [h1])

theorem nameLe_trans (a b c : FileInfo) (hab : nameLe a b) (hbc : nameLe b c) : nameLe a c := by
  unfold nameLe strLt at hab hbc ⊢
  cases hv : charListLt c.name.data a.name.data with
  | false => rfl
  | true =>
    rcases charListLt_connex _ _ hbc with h1 | h1
    · have h2 := charListLt_trans _ _ _ h1 hv
      rw [hab] at h2
      exact Bool.noConfusion h2
    · rw [h1] at hv
      rw [hab] at hv
      exact Bool.noConfusion hv

theorem nameLe_total (a b : FileInfo) : nameLe a b ∨ nameLe b a := by
  unfold nameLe strLt
  cases hv : charListLt b.name.data a.name.data with
  | false => exact Or.inl rfl
  | true =>
    refine Or.inr ?_
    cases hw : charListLt a.name.data b.name.data with
    | false => rfl
    | true =>
      have h2 := charListLt_trans _ _ _ hw hv
      rw [charListLt_irrefl] at h2
      exact Bool.noConfusion h2

instance : IsTrans FileInfo nameLe := ⟨nameLe_trans⟩

instance : IsTotal FileInfo nameLe := ⟨nameLe_total⟩

theorem nameLt_of_nameLe_of_ne {a b : FileInfo} (h : nameLe a b) (hne : a.name ≠ b.name) :
    nameLt a b := by
  unfold nameLe strLt at h
  unfold nameLt strLt
  rcases charListLt_connex _ _ h with h1 | h1
  · exact h1
  · exact absurd (String.ext h1).symm hne

/-! ## Sort lemmas -/

theorem sortEntries_sorted (l : List FileInfo) : (sortEntries l).Sorted nameLe :=
  List.sorted_insertionSort nameLe l

theorem sortEntries_perm (l : List FileInfo) : (sortEntries l).Perm l :=
  List.perm_insertionSort nameLe l

theorem sortEntries_eq_of_sorted {l : List FileInfo} (h : l.Sorted nameLe) :
    sortEntries l = l :=
  h.insertionSort_eq

theorem sorted_nameLt_of_nodup {l : List FileInfo} (hs : l.Sorted nameLe)
    (hn : (l.map FileInfo.name).Nodup) : l.Sorted nameLt := by
  have hpw : l.Pairwise (fun a b => a.name ≠ b.name) := List.pairwise_map.mp hn
  exact (List.Pairwise.and hs hpw).imp (fun h => nameLt_of_nameLe_of_ne h.1 h.2)

theorem entryOf_name (item : DriveItem) : (entryOf item).name = item.name := rfl

/-! ## Unfolding lemmas for the directory handle -/

theorem ReadDir_fetched (d : OpenDir) (hf : d.fetched = true)
    (fetch : Except RemoteError (List DriveItem)) (count : Int) :
    d.ReadDir fetch count = ⟨(d.serve count).1, (d.serve count).2, false⟩ := by
  unfold OpenDir.ReadDir OpenDir.fetchOnce
  rw [hf]
  simp

theorem ReadDir_fresh_ok (d : OpenDir) (hf : d.fetched = false)
    (its : List DriveItem) (count : Int) :
    d.ReadDir (.ok its) count =
      ⟨(({ d with fetched := true, items := its }).serve count).1,
        (({ d with fetched := true, items := its }).serve count).2, true⟩ := by
  unfold OpenDir.ReadDir OpenDir.fetchOnce
  rw [hf]
  simp

theorem ReadDir_fresh_error (d : OpenDir) (hf : d.fetched = false)
    (e : RemoteError) (count : Int) :
    d.ReadDir (.error e) count =
      ⟨.error (.remote e), { d with fetched := true }, true⟩ := by
  unfold OpenDir.ReadDir OpenDir.fetchOnce
  rw [hf]
  simp

theorem serve_ok_shape {d : OpenDir} {count : Int} {l : List FileInfo}
    (h : (d.serve count).1 = .ok l) :
    l = sortEntries (((d.items.drop d.offset).take (serveCount d count)).map entryOf) := by
  unfold OpenDir.serve at h
  split at h
  · exact absurd h (by simp)
  · exact (by simpa using h.symm)

theorem serveCount_eq_min {d : OpenDir} {count : Int} (hpos : 0 < count) :
    serveCount d count = min count.toNat (d.items.length - d.offset) := by
  unfold serveCount
  split
  · next h => omega
  · next h =>
    have h2 : ¬ count < ((d.items.length - d.offset : Nat) : Int) := fun hc => h ⟨hpos, hc⟩
    omega

theorem serve_neg {d : OpenDir} {count : Int} (hneg : count < 0)
    (hoff : d.offset ≤ d.items.length) :
    d.serve count =
      (.ok (sortEntries ((d.items.drop d.offset).map entryOf)),
        { d with offset := d.items.length }) := by
  unfold OpenDir.serve
  rw [if_neg (by omega)]
  have hsc : serveCount d count = d.items.length - d.offset := by
    unfold serveCount
    rw [if_neg (by omega)]
  rw [hsc]
  rw [List.take_of_length_le (le_of_eq (List.length_drop _ _))]
  have hoffsum : d.offset + (d.items.length - d.offset) = d.items.length := by omega
  rw [hoffsum]

theorem serve_pos_eof {d : OpenDir} {count : Int} (hpos : 0 < count)
    (h0 : d.items.length - d.offset = 0) :
    d.serve count = (.error .eof, d) := by
  unfold OpenDir.serve
  rw [if_pos ⟨h0, hpos⟩]

theorem serve_pos_ok {d : OpenDir} {count : Int} (hpos : 0 < count)
    (h0 : d.items.length - d.offset ≠ 0) :
    d.serve count =
      (.ok (sortEntries (((d.items.drop d.offset).take (serveCount d count)).map entryOf)),
        { d with offset := d.offset + serveCount d count }) := by
  unfold OpenDir.serve
  rw [if_neg (fun hc => h0 hc.1)]

/-! ## Unfolding lemmas for the facade -/

theorem Open_validate_error {f : FS} {r : Resolver} {dl : Download} {p : String}
    {e : BaseError} (hv : validatePath p = some e) :
    FS.Open f r dl p = .error (.pathError "open" p e) := by
  unfold FS.Open
  rw [hv]

theorem Stat_validate_error {f : FS} {r : Resolver} {p : String}
    {e : BaseError} (hv : validatePath p = some e) :
    FS.Stat f r p = .error (.pathError "open" p e) := by
  unfold FS.Stat
  rw [hv]

theorem Open_notfound {f : FS} {r : Resolver} {dl : Download} {p : String}
    {od : OneDriveAPIError} (hv : validatePath p = none)
    (hr : r (itemPathOf p) = .error (.api od)) (hcode : od.code = "itemNotFound") :
    FS.Open f r dl p = .error .errNotExist := by
  unfold FS.Open
  rw [hv, hr]
  simp [ItemNotFoundErrorCode, hcode]

theorem Stat_notfound {f : FS} {r : Resolver} {p : String}
    {od : OneDriveAPIError} (hv : validatePath p = none)
    (hr : r (itemPathOf p) = .error (.api od)) (hcode : od.code = "itemNotFound") :
    FS.Stat f r p = .error .errNotExist := by
  unfold FS.Stat
  rw [hv, hr]
  simp [hcode]

theorem Open_other_error {f : FS} {r : Resolver} {dl : Download} {p : String}
    {e : RemoteError} (hv : validatePath p = none)
    (hr : r (itemPathOf p) = .error e)
    (hne : ∀ od, e = .api od → od.code ≠ "itemNotFound") :
    FS.Open f r dl p = .error (.remote e) := by
  unfold FS.Open
  rw [hv, hr]
  cases e with
  | api od => simp [ItemNotFoundErrorCode, hne od rfl]
  | canceled => rfl
  | transport m => rfl
  | generic m => rfl
  | decodeFailure m => rfl

theorem Stat_other_error {f : FS} {r : Resolver} {p : String}
    {e : RemoteError} (hv : validatePath p = none)
    (hr : r (itemPathOf p) = .error e)
    (hne : ∀ od, e = .api od → od.code ≠ "itemNotFound") :
    FS.Stat f r p = .error (.remote e) := by
  unfold FS.Stat
  rw [hv, hr]
  cases e with
  | api od => simp [hne od rfl]
  | canceled => rfl
  | transport m => rfl
  | generic m => rfl
  | decodeFailure m => rfl

theorem Open_folder {f : FS} {r : Resolver} {dl : Download} {p : String}
    {item : DriveItem} (hv : validatePath p = none)
    (hr : r (itemPathOf p) = .ok item) (hfold : item.folder = true) :
    FS.Open f r dl p = .ok (.dir
      { info := projectItem item, dirID := item.id, driveID := f.driveID,
        fetched := false, items := [], offset := 0 }) := by
  unfold FS.Open
  rw [hv, hr]
  simp [hfold]

theorem Stat_ok {f : FS} {r : Resolver} {p : String} {item : DriveItem}
    (hv : validatePath p = none) (hr : r (itemPathOf p) = .ok item) :
    FS.Stat f r p = .ok (projectItem item) := by
  unfold FS.Stat
  rw [hv, hr]

theorem Open_dir_inv {f : FS} {r : Resolver} {dl : Download} {p : String}
    {d : OpenDir} (h : FS.Open f r dl p = .ok (.dir d)) :
    d.fetched = false ∧ d.items = [] ∧ d.offset = 0 := by
  unfold FS.Open at h
  cases hv : validatePath p <;> rw [hv] at h
  case some e => exact absurd h (by simp)
  cases hr : r (itemPathOf p) <;> rw [hr] at h
  case error e =>
    cases e with
    | api od =>
      dsimp only at h
      split at h
      · exact absurd h (by simp)
      · exact absurd h (by simp)
    | canceled => exact absurd h (by simp)
    | transport m => exact absurd h (by simp)
    | generic m => exact absurd h (by simp)
    | decodeFailure m => exact absurd h (by simp)
  case ok item =>
    dsimp only at h
    by_cases hfold : item.folder = true
    · rw [if_pos hfold] at h
      simp only [Except.ok.injEq, OpenResult.dir.injEq] at h
      rw [← h]
      exact ⟨rfl, rfl, rfl⟩
    · rw [if_neg hfold] at h
      split at h
      · exact absurd h (by simp)
      · split at h
        · exact absurd h (by simp)
        · exact absurd h (by simp)

/-! ## Concrete fixtures -/

/-- A minimal file item fixture. -/
def itemNamed (nm : String) : DriveItem :=
  { id := nm, name := nm, downloadURL := "u", description := "", folder := false,
    root := false, size := 0, createdDateTime := 0, lastModifiedDateTime := 0 }

/-- A minimal folder item fixture. -/
def folderNamed (nm : String) : DriveItem :=
  { itemNamed nm with folder := true, downloadURL := "" }

/-- A fresh directory handle fixture with an empty cache. -/
def freshDir : OpenDir :=
  { info := projectItem (folderNamed "d"), dirID := "d", driveID := "",
    fetched := false, items := [], offset := 0 }

/-- Resolver fixture returning a fixed item for every path. -/
def resolveTo (item : DriveItem) : Resolver := fun _ => .ok item

/-- Resolver fixture failing with a fixed error for every path. -/
def resolveErr (e : RemoteError) : Resolver := fun _ => .error e

/-- Download fixture returning a fixed body. -/
def downloadConst (body : List Nat) : Download := fun _ => .ok body

/-- An itemNotFound API error fixture. -/
def notFoundErr : OneDriveAPIError :=
  { code := "itemNotFound", message := "The resource could not be found.",
    localizedMessage := "", innerError := none, responseHeader := [] }

/-! ## C4 -/

/-- C4: when path resolution fails, Open and Stat map a remote API error with
code itemNotFound to fs.ErrNotExist, and return every other resolution error
(other API codes, cancellation, transport failures) unchanged. -/
theorem open_stat_error_mapping (f : FS) (resolve : Resolver) (download : Download)
    (name : String) (e : RemoteError)
    (hv : validatePath name = none)
    (hr : resolve (itemPathOf name) = .error e) :
    ((∃ od, e = .api od ∧ od.code = "itemNotFound") →
      FS.Open f resolve download name = .error .errNotExist
      ∧ FS.Stat f resolve name = .error .errNotExist)
    ∧ ((∀ od, e = .api od → od.code ≠ "itemNotFound") →
      FS.Open f resolve download name = .error (.remote e)
      ∧ FS.Stat f resolve name = .error (.remote e)) := by
  constructor
  · rintro ⟨od, rfl, hcode⟩
    exact ⟨Open_notfound hv hr hcode, Stat_notfound hv hr hcode⟩
  · intro hne
    exact ⟨Open_other_error hv hr hne, Stat_other_error hv hr hne⟩

/-- Witness for C4: a concrete itemNotFound resolution failure yields
fs.ErrNotExist from Open, and a concrete cancellation passes through Stat
unchanged. -/
theorem open_stat_error_mapping_witness :
    FS.Open ⟨""⟩ (resolveErr (.api notFoundErr)) (downloadConst []) "x"
      = .error .errNotExist
    ∧ FS.Stat ⟨""⟩ (resolveErr .canceled) "x" = .error (.remote .canceled) := by
  refine ⟨?_, ?_⟩
  · exact ((open_stat_error_mapping ⟨""⟩ (resolveErr (.api notFoundErr)) (downloadConst [])
      "x" (.api notFoundErr) (by decide) rfl).1 ⟨notFoundErr, rfl, rfl⟩).1
  · exact ((open_stat_error_mapping ⟨""⟩ (resolveErr .canceled) (downloadConst [])
      "x" .canceled (by decide) rfl).2 (fun od h => nomatch h)).2

/-! ## C5 -/

/-- C5: for every input path that is absolute, or differs from its
filepath.Clean form, or contains a backslash, Open and Stat fail with the
path-invalid error and their outcome is independent of the remote oracles
(no network request); the path "." passes validation and is sent to
resolution as the empty item path, which addresses the drive root. -/
theorem invalid_path_rejected :
    (∀ p : String, (isAbs p = true ∨ cleanPath p ≠ p ∨ strContains p '\\' = true) →
      ∀ (f : FS) (r r' : Resolver) (dl dl' : Download),
        (∃ m, FS.Open f r dl p = .error (.pathError "open" p (.ofString m)))
        ∧ FS.Open f r dl p = FS.Open f r' dl' p
        ∧ (∃ m, FS.Stat f r p = .error (.pathError "open" p (.ofString m)))
        ∧ FS.Stat f r p = FS.Stat f r' p)
    ∧ validatePath "." = none
    ∧ itemPathOf "." = ""
    ∧ ∀ (esc : String → String) (driveID : String),
        getDriveItemURL esc driveID "" =
          if driveID = "" then "me/drive/root"
          else "/v1.0/drives/" ++ esc driveID ++ "/root" := by
  refine ⟨?_, by decide, by decide, ?_⟩
  · intro p hp f r r' dl dl'
    have hv : ∃ m, validatePath p = some (.ofString m) := by
      unfold validatePath
      by_cases h1 : isAbs p = true
      · exact ⟨"absolute paths are not allowed", by rw [if_pos h1]⟩
      · by_cases h2 : cleanPath p ≠ p
        · exact ⟨"relative path elements are not allowed", by rw [if_neg h1, if_pos h2]⟩
        · by_cases h3 : strContains p '\\' = true
          · exact ⟨"backslashes are not allowed in path",
              by rw [if_neg h1, if_neg h2, if_pos h3]⟩
          · rcases hp with h | h | h
            · exact absurd h h1
            · exact absurd h h2
            · exact absurd h h3
    obtain ⟨m, hm⟩ := hv
    refine ⟨⟨m, Open_validate_error hm⟩, ?_, ⟨m, Stat_validate_error hm⟩, ?_⟩
    · rw [Open_validate_error hm, Open_validate_error hm]
    · rw [Stat_validate_error hm, Stat_validate_error hm]
  · intro esc driveID
    by_cases hd : driveID = ""
    · simp [getDriveItemURL, hd]
    · simp [getDriveItemURL, hd]

/-- Witness for C5 at the concrete absolute path "/a": Open fails with the
path-invalid error and two different oracle pairs give the same outcome. -/
theorem invalid_path_rejected_witness :
    FS.Open ⟨""⟩ (resolveTo (itemNamed "a")) (downloadConst []) "/a"
      = FS.Open ⟨""⟩ (resolveErr .canceled) (downloadConst [1]) "/a"
    ∧ (∃ m, FS.Open ⟨""⟩ (resolveTo (itemNamed "a")) (downloadConst []) "/a"
        = .error (.pathError "open" "/a" (.ofString m))) := by
  have h := invalid_path_rejected.1 "/a" (Or.inl (by decide)) ⟨""⟩
    (resolveTo (itemNamed "a")) (resolveErr .canceled) (downloadConst []) (downloadConst [1])
  exact ⟨h.2.1, h.1⟩

/-! ## C8 -/

/-- C8: the RemoteItem-to-FilesystemEntity projection is a pure total
function: folder items get mode 0o555 + fs.ModeDir with the directory flag,
file items mode 0o555 without it, a (well-formed) root item is renamed to
".", non-root items keep their remote name, and size and modification time
are copied verbatim. -/
theorem projection_rules (item : DriveItem) (hwf : item.root = true → item.folder = true) :
    (item.folder = true → (projectItem item).isDir = true
      ∧ (projectItem item).mode = 0o555 + modeDir)
    ∧ (item.folder = false → (projectItem item).isDir = false
      ∧ (projectItem item).mode = 0o555)
    ∧ (item.root = true → (projectItem item).name = ".")
    ∧ (item.root = false → (projectItem item).name = item.name)
    ∧ (projectItem item).size = item.size
    ∧ (projectItem item).modTime = item.lastModifiedDateTime := by
  by_cases hf : item.folder = true
  · by_cases hr : item.root = true
    · simp [projectItem, hf, hr]
    · simp [projectItem, hf, hr]
  · have hf2 : item.folder = false := by
      cases hb : item.folder
      · rfl
      · exact absurd hb hf
    have hr2 : item.root = false := by
      cases hb : item.root
      · rfl
      · exact absurd (hwf hb) hf
    simp [projectItem, hf2, hr2]

/-- Witness for C8 at concrete items: a folder fixture gets the directory
mode and flag, a file fixture gets plain 0o555. -/
theorem projection_rules_witness :
    ((projectItem (folderNamed "sub")).isDir = true
      ∧ (projectItem (folderNamed "sub")).mode = 0o555 + modeDir)
    ∧ ((projectItem (itemNamed "f")).isDir = false
      ∧ (projectItem (itemNamed "f")).mode = 0o555) := by
  refine ⟨?_, ?_⟩
  · exact (projection_rules (folderNamed "sub") (by decide)).1 (by decide)
  · exact (projection_rules (itemNamed "f") (by decide)).2.1 (by decide)

/-! ## Drain lemmas for repeated bounded reads -/

theorem drainOne_fetched (fetch : Except RemoteError (List DriveItem)) :
    ∀ (fuel : Nat) (d : OpenDir), d.fetched = true → d.offset ≤ d.items.length →
      d.items.length - d.offset < fuel →
      drainOne fetch d fuel = (d.items.drop d.offset).map entryOf := by
  intro fuel
  induction fuel with
  | zero => intro d hf hoff hlt; omega
  | succ n ih =>
    intro d hf hoff hlt
    unfold drainOne
    rw [ReadDir_fetched d hf fetch 1]
    by_cases h0 : d.items.length - d.offset = 0
    · rw [serve_pos_eof (by omega) h0]
      dsimp only
      have hnil : d.items.drop d.offset = [] := List.drop_eq_nil_of_le (by omega)
      rw [hnil]
      rfl
    · rw [serve_pos_ok (by omega) h0]
      dsimp only
      have hsc : serveCount d 1 = 1 := by
        rw [serveCount_eq_min (by omega)]
        omega
      obtain ⟨a, rest, hd⟩ : ∃ a rest, d.items.drop d.offset = a :: rest := by
        cases hdd : d.items.drop d.offset with
        | nil =>
          exfalso
          have := congrArg List.length hdd
          simp [List.length_drop] at this
          omega
        | cons a rest => exact ⟨a, rest, rfl⟩
      rw [hsc, hd]
      rw [List.take_succ_cons, List.take_zero]
      simp only [List.map_cons, List.map_nil]
      rw [sortEntries_eq_of_sorted (List.sorted_singleton _)]
      have hrest : ({ d with offset := d.offset + 1 } : OpenDir).items.drop
          (d.offset + 1) = rest := by
        dsimp only
        have hdd : d.items.drop (d.offset + 1) = (d.items.drop d.offset).drop 1 := by
          rw [List.drop_drop]
        rw [hdd, hd]
        rfl
      have hih := ih { d with offset := d.offset + 1 } hf
        (by dsimp only; omega)
        (by dsimp only; omega)
      rw [hih, hrest]
      rfl

theorem drainOne_step_eq {d : OpenDir} {its : List DriveItem} (hf : d.fetched = false)
    (fuel : Nat) :
    drainOne (.ok its) d (fuel + 1)
      = drainOne (.ok its) { d with fetched := true, items := its } (fuel + 1) := by
  unfold drainOne
  rw [ReadDir_fresh_ok d hf its 1,
    ReadDir_fetched { d with fetched := true, items := its } rfl (.ok its) 1]

theorem drainOne_fresh (items : List DriveItem) (d : OpenDir)
    (hf : d.fetched = false) (hoff : d.offset = 0) :
    drainOne (.ok items) d (items.length + 1) = items.map entryOf := by
  rw [drainOne_step_eq hf]
  have h := drainOne_fetched (.ok items) (items.length + 1)
    { d with fetched := true, items := items } rfl
    (by dsimp only; omega)
    (by dsimp only; omega)
  rw [h]
  dsimp only
  rw [hoff, List.drop_zero]

/-! ## The unbounded facade read -/

theorem facade_readdir_ok_eq {f : FS} {r : Resolver} {dl : Download}
    {items : List DriveItem} {name : String} {l : List FileInfo}
    (h : FS.ReadDir f r dl (.ok items) name = .ok l) :
    l = sortEntries (items.map entryOf) := by
  unfold FS.ReadDir at h
  cases ho : FS.Open f r dl name <;> rw [ho] at h
  case error e => exact absurd h (by simp)
  case ok v =>
    cases v with
    | file fl => exact absurd h (by simp)
    | dir d =>
      obtain ⟨hfe, hi, hoff⟩ := Open_dir_inv ho
      dsimp only at h
      rw [ReadDir_fresh_ok d hfe items (-1)] at h
      rw [serve_neg (by omega) (by dsimp only; omega)] at h
      dsimp only at h
      rw [hoff, List.drop_zero] at h
      simpa using h.symm

/-! ## C1 -/

/-- C1: the facade ReadDir (one unbounded read on a fresh handle) returns
the directory's entries in strictly ascending name order regardless of the
order the remote API returned them in (strictness by the directory invariant
that child names are pairwise distinct), and every individual batch an
openDir.ReadDir call returns is sorted ascending by name. -/
theorem facade_readdir_sorted :
    (∀ (f : FS) (r : Resolver) (dl : Download) (name : String)
        (items : List DriveItem) (l : List FileInfo),
        (items.map DriveItem.name).Nodup →
        FS.ReadDir f r dl (.ok items) name = .ok l →
        l.Perm (items.map entryOf) ∧ l.Sorted nameLt)
    ∧ (∀ (fetch : Except RemoteError (List DriveItem)) (d : OpenDir) (count : Int)
        (l : List FileInfo),
        (d.ReadDir fetch count).result = .ok l → l.Sorted nameLe) := by
  constructor
  · intro f r dl name items l hnodup h
    have hl := facade_readdir_ok_eq h
    subst hl
    refine ⟨sortEntries_perm _, ?_⟩
    apply sorted_nameLt_of_nodup (sortEntries_sorted _)
    have hperm : ((sortEntries (items.map entryOf)).map FileInfo.name).Perm
        ((items.map entryOf).map FileInfo.name) := (sortEntries_perm _).map _
    rw [hperm.nodup_iff]
    have hmm : (items.map entryOf).map FileInfo.name = items.map DriveItem.name := by
      rw [List.map_map]
      rfl
    rw [hmm]
    exact hnodup
  · intro fetch d count l h
    unfold OpenDir.ReadDir at h
    rcases hfo : d.fetchOnce fetch with ⟨eo, d1, df⟩
    rw [hfo] at h
    cases eo with
    | some e => exact absurd h (by simp)
    | none =>
      dsimp only at h
      rw [serve_ok_shape h]
      exact sortEntries_sorted _

/-- Witness for C1 at a concrete fetch returned in descending order. -/
theorem facade_readdir_sorted_witness :
    FS.ReadDir ⟨""⟩ (resolveTo (folderNamed "d")) (downloadConst [])
        (.ok [itemNamed "b", itemNamed "a"]) "x"
      = .ok [entryOf (itemNamed "a"), entryOf (itemNamed "b")]
    ∧ ([entryOf (itemNamed "a"), entryOf (itemNamed "b")] : List FileInfo).Sorted nameLt := by
  have hres : FS.ReadDir ⟨""⟩ (resolveTo (folderNamed "d")) (downloadConst [])
      (.ok [itemNamed "b", itemNamed "a"]) "x"
      = .ok [entryOf (itemNamed "a"), entryOf (itemNamed "b")] := rfl
  exact ⟨hres, (facade_readdir_sorted.1 ⟨""⟩ (resolveTo (folderNamed "d"))
    (downloadConst []) "x" [itemNamed "b", itemNamed "a"] _ (by decide) hres).2⟩

/-! ## C2 -/

/-- C2 as stated is false: over the fetched child set returned in the remote
order [b, a], draining the handle by repeated ReadDir(1) yields the entries
in remote order (each singleton batch is trivially sorted), while one
unbounded ReadDir(-1) on a fresh handle over the same set yields the
name-sorted sequence; the two sequences differ. -/
theorem drain_one_counterexample :
    drainOne (.ok [itemNamed "b", itemNamed "a"]) freshDir 3
      = [entryOf (itemNamed "b"), entryOf (itemNamed "a")]
    ∧ (freshDir.ReadDir (.ok [itemNamed "b", itemNamed "a"]) (-1)).result
      = .ok [entryOf (itemNamed "a"), entryOf (itemNamed "b")]
    ∧ ([entryOf (itemNamed "b"), entryOf (itemNamed "a")] : List FileInfo)
      ≠ [entryOf (itemNamed "a"), entryOf (itemNamed "b")] :=
  ⟨rfl, rfl, by decide⟩

/-- C2 amended: draining a fresh handle by repeated ReadDir(1) always yields
the same multiset of entries as a single unbounded ReadDir(-1) over the same
fetched child set, and yields the identical sequence exactly when the
fetched listing is already ascending by name (as when the server honored the
requested $orderby hint); in general the bounded drain preserves the remote
order while the unbounded read sorts its single batch. -/
theorem drain_one_amended (d : OpenDir) (items : List DriveItem) (l : List FileInfo)
    (hf : d.fetched = false) (hoff : d.offset = 0)
    (hub : (d.ReadDir (.ok items) (-1)).result = .ok l) :
    (drainOne (.ok items) d (items.length + 1)).Perm l
    ∧ ((items.map entryOf).Sorted nameLe →
        drainOne (.ok items) d (items.length + 1) = l) := by
  have hdrain := drainOne_fresh items d hf hoff
  rw [ReadDir_fresh_ok d hf items (-1)] at hub
  rw [serve_neg (by omega) (by dsimp only; omega)] at hub
  dsimp only at hub
  rw [hoff, List.drop_zero] at hub
  have hub2 : sortEntries (items.map entryOf) = l := by simpa using hub
  constructor
  · rw [hdrain, ← hub2]
    exact (sortEntries_perm _).symm
  · intro hs
    rw [hdrain, ← hub2, sortEntries_eq_of_sorted hs]

/-- Witness for the amended C2 at a concrete name-sorted fetch. -/
theorem drain_one_amended_witness :
    (drainOne (.ok [itemNamed "a", itemNamed "b"]) freshDir 3).Perm
      [entryOf (itemNamed "a"), entryOf (itemNamed "b")]
    ∧ drainOne (.ok [itemNamed "a", itemNamed "b"]) freshDir 3
      = [entryOf (itemNamed "a"), entryOf (itemNamed "b")] := by
  have h := drain_one_amended freshDir [itemNamed "a", itemNamed "b"]
    [entryOf (itemNamed "a"), entryOf (itemNamed "b")] rfl rfl rfl
  exact ⟨h.1, h.2 (by decide)⟩

/-! ## C3 -/

/-- C3: the listing is fetched at most once per handle (only the first call
fetches), but the code does not latch a fetch failure: the failure is
reported only by the very call that performed the fetch, and the next
ReadDir(-1) on the same handle succeeds with an empty listing instead of
reporting the failure again (issuing no second fetch), contradicting the
claim that every subsequent call observes the failed outcome. -/
theorem once_fetch_failure_not_latched :
    ((freshDir.ReadDir (.error (.transport "connection reset")) (-1)).result
      = .error (.remote (.transport "connection reset")))
    ∧ ((freshDir.ReadDir (.error (.transport "connection reset")) (-1)).didFetch = true)
    ∧ (((freshDir.ReadDir (.error (.transport "connection reset"))
          (-1)).state.ReadDir (.error (.transport "connection reset")) (-1)).result
        = .ok [])
    ∧ (((freshDir.ReadDir (.error (.transport "connection reset"))
          (-1)).state.ReadDir (.error (.transport "connection reset")) (-1)).didFetch
        = false) :=
  ⟨rfl, rfl, rfl, rfl⟩

/-! ## C7 -/

/-- C7: the cursor contract of openDir.ReadDir on a handle whose listing is
fetched: a positive count returns at most count entries starting at the
cursor (the batch is a permutation of the cursor window, reported sorted)
and advances the cursor by the number returned, signalling io.EOF exactly
when nothing remains; a negative count returns all remaining entries and
advances the cursor to the end, and when already drained returns an empty
result with no error. -/
theorem readdir_cursor_contract (fetch : Except RemoteError (List DriveItem))
    (d : OpenDir) (count : Int) (hf : d.fetched = true)
    (hoff : d.offset ≤ d.items.length) :
    (0 < count →
      (((d.ReadDir fetch count).result = .error .eof) ↔ d.offset = d.items.length)
      ∧ (∀ l, (d.ReadDir fetch count).result = .ok l →
          l.length = min count.toNat (d.items.length - d.offset)
          ∧ l.Perm (((d.items.drop d.offset).take l.length).map entryOf)
          ∧ (d.ReadDir fetch count).state.offset = d.offset + l.length))
    ∧ (count < 0 →
      ∃ l, (d.ReadDir fetch count).result = .ok l
        ∧ l.Perm ((d.items.drop d.offset).map entryOf)
        ∧ l.length = d.items.length - d.offset
        ∧ (d.ReadDir fetch count).state.offset = d.items.length
        ∧ (d.offset = d.items.length → l = [])) := by
  rw [ReadDir_fetched d hf fetch count]
  constructor
  · intro hpos
    by_cases h0 : d.items.length - d.offset = 0
    · rw [serve_pos_eof hpos h0]
      dsimp only
      refine ⟨⟨fun _ => by omega, fun _ => rfl⟩, ?_⟩
      intro l hl
      exact absurd hl (by simp)
    · rw [serve_pos_ok hpos h0]
      dsimp only
      refine ⟨⟨fun hh => absurd hh (by simp), fun hh => absurd hh (by omega)⟩, ?_⟩
      intro l hl
      have hll : l = sortEntries
          (((d.items.drop d.offset).take (serveCount d count)).map entryOf) := by
        simpa using hl.symm
      have hlen : l.length = min count.toNat (d.items.length - d.offset) := by
        rw [hll, (sortEntries_perm _).length_eq, List.length_map, List.length_take,
          List.length_drop, serveCount_eq_min hpos]
        omega
      refine ⟨hlen, ?_, ?_⟩
      · have htake : (d.items.drop d.offset).take l.length
            = (d.items.drop d.offset).take (serveCount d count) := by
          rw [hlen, ← serveCount_eq_min hpos]
        rw [htake, hll]
        exact sortEntries_perm _
      · rw [hlen, serveCount_eq_min hpos]
  · intro hneg
    rw [serve_neg hneg hoff]
    dsimp only
    refine ⟨sortEntries ((d.items.drop d.offset).map entryOf), rfl,
      sortEntries_perm _, ?_, rfl, ?_⟩
    · rw [(sortEntries_perm _).length_eq, List.length_map, List.length_drop]
    · intro hend
      have hnil : d.items.drop d.offset = [] := List.drop_eq_nil_of_le (by omega)
      rw [hnil]
      rfl

/-- A fetched directory handle fixture with the cursor past the first of two
entries. -/
def servedDir : OpenDir :=
  { info := projectItem (folderNamed "d"), dirID := "d", driveID := "",
    fetched := true, items := [itemNamed "a", itemNamed "b"], offset := 1 }

/-- Witness for C7 at a concrete fetched handle with one remaining entry:
a bounded read does not signal io.EOF, and an unbounded read returns exactly
the one remaining entry. -/
theorem readdir_cursor_contract_witness :
    (servedDir.ReadDir (.ok []) 5).result ≠ .error .eof
    ∧ (∃ l, (servedDir.ReadDir (.ok []) (-1)).result = .ok l ∧ l.length = 1) := by
  have h := readdir_cursor_contract (.ok []) servedDir 5 rfl (by decide)
  have h2 := readdir_cursor_contract (.ok []) servedDir (-1) rfl (by decide)
  constructor
  · intro hh
    have heq := (h.1 (by decide)).1.mp hh
    exact absurd heq (by decide)
  · obtain ⟨l, hl, _, hlen, _, _⟩ := h2.2 (by decide)
    refine ⟨l, hl, ?_⟩
    rw [hlen]
    decide

/-! ## C6 -/

/-- C6: doRequest translates every response with status at least 400 into
the structured remote API error decoded from the body, with the response
headers attached; when the error body cannot be decoded, or decodes without
an error object, it instead returns the generic error whose text is
"unexpected error: " followed by the HTTP status (a total translation, never
a crash); and a success response with status 204 yields no decoded target,
independently of the target decoder. -/
theorem doRequest_error_translation {α : Type} (resp : Response)
    (dt dt2 : Except RemoteError α) :
    (400 ≤ resp.statusCode →
      (∀ e, resp.errorBody = .ok (some e) →
        doRequest (.ok resp) dt = .error (.api { e with responseHeader := resp.header }))
      ∧ ((resp.errorBody = .ok none ∨ ∃ m, resp.errorBody = .error m) →
        doRequest (.ok resp) dt
          = .error (.generic ("unexpected error: " ++ resp.status)))
      ∧ doRequest (.ok resp) dt = doRequest (.ok resp) dt2)
    ∧ (resp.statusCode = 204 →
      doRequest (.ok resp) dt = .ok none
      ∧ doRequest (.ok resp) dt = doRequest (.ok resp) dt2) := by
  constructor
  · intro h400
    unfold doRequest
    dsimp only
    rw [if_pos h400, if_pos h400]
    refine ⟨?_, ?_, rfl⟩
    · intro e he
      rw [he]
    · rintro (he | ⟨m, he⟩) <;> rw [he]
  · intro h204
    unfold doRequest
    dsimp only
    rw [if_neg (by omega), if_neg (by omega), if_neg (by omega), if_neg (by omega)]
    exact ⟨rfl, rfl⟩

/-- A 404 response fixture with a decodable error body. -/
def resp404 : Response :=
  { statusCode := 404, status := "404 Not Found",
    header := [("Retry-After", "1")], errorBody := .ok (some notFoundErr) }

/-- A 204 response fixture. -/
def resp204 : Response :=
  { statusCode := 204, status := "204 No Content", header := [], errorBody := .ok none }

/-- Witness for C6 at concrete responses: a 404 with a decodable body yields
the structured error with headers attached, and a 204 yields no decoded
target even though the target decoder would fail. -/
theorem doRequest_error_translation_witness :
    @doRequest (List DriveItem) (.ok resp404) (.error (.decodeFailure "bad json"))
      = .error (.api { notFoundErr with responseHeader := resp404.header })
    ∧ @doRequest (List DriveItem) (.ok resp204) (.error (.decodeFailure "bad json"))
      = .ok none := by
  constructor
  · exact ((doRequest_error_translation resp404 (.error (.decodeFailure "bad json"))
      (.error (.decodeFailure "bad json"))).1 (by decide)).1 notFoundErr rfl
  · exact ((doRequest_error_translation resp204 (.error (.decodeFailure "bad json"))
      (.error (.decodeFailure "bad json"))).2 rfl).1

/-! ## C9 -/

/-- The listing URL form the code actually produces, factored the way the
(amended) spec words it: me/drives for an explicit drive. -/
def listItemsURLAmended (esc : String → String) (driveID folderID : String) : String :=
  (if driveID = "" then "me/drive" else "me/drives/" ++ esc driveID) ++ "/" ++
    (if folderID = "" then "root" else "items/" ++ esc folderID) ++ "/children"

theorem slash_items_fold (t : String) :
    ("/" : String) ++ ("items/" ++ t) = "/items/" ++ t := by
  rw [← String.append_assoc]
  rfl

theorem slash_root_children_fold :
    ("/" : String) ++ ("root" ++ "/children") = "/root/children" := rfl

theorem me_drive_items_fold (t : String) :
    ("me/drive/" : String) ++ ("items/" ++ t) = "me/drive/items/" ++ t := by
  rw [← String.append_assoc]
  rfl

/-- C9 counterexample: for a non-empty driveID the listing request path the
code builds addresses me/drives/{driveID}, not drives/{driveID} as the claim
states. -/
theorem listing_url_counterexample :
    listItemsURL (fun s => s) "d1" "" = "me/drives/d1/root/children"
    ∧ listItemsURLSpec (fun s => s) "d1" "" = "drives/d1/root/children"
    ∧ listItemsURL (fun s => s) "d1" "" ≠ listItemsURLSpec (fun s => s) "d1" "" :=
  ⟨rfl, rfl, by decide⟩

/-- C9 amended: the children-listing request path is
(me/drive | me/drives/{driveID}) / (root | items/{folderID}) / children with
both identifiers URL-escaped, the attached query is $orderby = "name asc",
and the full URL prefixes the versioned graph base. -/
theorem listing_url_amended (esc : String → String) (driveID folderID : String) :
    listItemsURL esc driveID folderID = listItemsURLAmended esc driveID folderID
    ∧ listItemsQuery = [("$orderby", "name asc")]
    ∧ newRequestURL (listItemsURL esc driveID folderID)
      = "https://graph.microsoft.com/v1.0/" ++ listItemsURL esc driveID folderID := by
  refine ⟨?_, rfl, rfl⟩
  unfold listItemsURL listItemsURLAmended
  by_cases hd : driveID = "" <;> by_cases hf : folderID = "" <;>
    simp [hd, hf, String.append_assoc, slash_items_fold, me_drive_items_fold,
      slash_root_children_fold]

/-! ## C10 -/

/-- C10: reading a whole file at a path that resolves to a directory fails:
Open yields a directory handle, the handle's byte-read operation always
returns the invalid-operation path error, and ReadFile aborts the copy with
that error instead of returning bytes. -/
theorem readfile_on_directory_fails (f : FS) (resolve : Resolver) (download : Download)
    (name : String) (item : DriveItem)
    (hv : validatePath name = none)
    (hr : resolve (itemPathOf name) = .ok item)
    (hfold : item.folder = true) :
    FS.ReadFile f resolve download name
      = .error (.pathError "read" (projectItem item).name .errInvalid) := by
  unfold FS.ReadFile
  rw [Open_folder hv hr hfold]
  rfl

/-- Witness for C10 at a concrete folder resolution. -/
theorem readfile_on_directory_fails_witness :
    FS.ReadFile ⟨""⟩ (resolveTo (folderNamed "sub")) (downloadConst []) "sub"
      = .error (.pathError "read" "sub" .errInvalid) := by
  have h := readfile_on_directory_fails ⟨""⟩ (resolveTo (folderNamed "sub"))
    (downloadConst []) "sub" (folderNamed "sub") (by decide) rfl (by decide)
  rw [h]
  rfl
